import Mathlib

/-!
Verification of the delegation query/aggregation handlers and server-config
validators of the staking-api-service repository.

The embedding models:
* `internal/api/handlers` (part_000): `GetStakerCountByFinalityProvider`,
  `GetDelegationsCountByFinalityProvider`, `GetStakerCountByStakerPk`,
  `CheckStakerDelegationExist`, `parseTimeframeToAfterTimestamp`;
* `internal/config/server.go`: `ServerConfig.Validate`,
  `ServerConfig.ValidateServerLogLevel`.

External collaborators (the service layer, Go stdlib `net.ParseIP`, the
zerolog library, the public-key / address query parsers that live outside
the given sources) are either taken as parameters of the embedded handlers
or modelled from the spec, as marked on each definition.
-/

/-- Type `types.Error` from the repository: an HTTP status code, an error-code
tag and a human-readable message. -/
structure TypesError where
  statusCode : Nat
  errorCode : String
  message : String
deriving DecidableEq, Repr

/-- Modelled from the spec: the string value of the `types.BadRequest`
error-code constant is not under src/; only the tag identity matters to the
claims, never its exact spelling. -/
def badRequestCode : String := "BAD_REQUEST"

/-- Modelled from the spec: `types.Unbonded.ToString()` is not under src/;
the spec's glossary names "unbonded" as the terminal delegation state that
is excluded from counts.  Only equality/inequality of a record's state with
this value is ever observed by the handlers. -/
def unbondedToString : String := "unbonded"

/-- A delegation record as observed by the handlers: the staker public key
(hex), the finality-provider public key (hex) and the delegation state
string (`DelegationRecord` of the spec's data model; the handlers read only
`StakerPkHex` and `State`). -/
structure DelegationRecord where
  stakerPkHex : String
  finalityProviderPkHex : String
  state : String
deriving DecidableEq, Repr

/-- An HTTP request, reduced to what the handlers read from it: the query
parameters, as a total map from parameter name to (possibly empty) value —
`request.URL.Query().Get(name)` returns `""` for a missing parameter. -/
def Request : Type := String → String

/-- Modelled from the spec: `utils.GetTodayStartTimestampInSeconds` is not
under src/; per the spec it returns the Unix-seconds timestamp of 00:00:00
UTC of the current day.  `now` is the current wall-clock time in Unix
seconds; days are the 86400-second UTC buckets of the Unix timeline. -/
def GetTodayStartTimestampInSeconds (now : Nat) : Nat :=
  86400 * (now / 86400)

/-- Function `parseTimeframeToAfterTimestamp` (part_000 lines 140–151): `""` maps to
`0`, `"today"` maps to the start of the current UTC day, and any other
value is a 400 `BadRequest` error with message "invalid timeframe value".
`now` stands for the wall clock read inside
`utils.GetTodayStartTimestampInSeconds`. -/
def parseTimeframeToAfterTimestamp (now : Nat) (timeframe : String) :
    Except TypesError Int :=
  if timeframe = "" then Except.ok 0
  else if timeframe = "today" then
    Except.ok (GetTodayStartTimestampInSeconds now : Int)
  else Except.error (TypesError.mk 400 badRequestCode "invalid timeframe value")

theorem parseTimeframe_ok_cases (now : Nat) (s : String) (v : Int)
    (h : parseTimeframeToAfterTimestamp now s = Except.ok v) :
    s = "" ∨ s = "today" := by
  by_cases h1 : s = ""
  · exact Or.inl h1
  · by_cases h2 : s = "today"
    · exact Or.inr h2
    · simp [parseTimeframeToAfterTimestamp, h1, h2] at h

theorem parseTimeframe_error_iff (now : Nat) (s : String) :
    (∃ e, parseTimeframeToAfterTimestamp now s = Except.error e) ↔
      (s ≠ "" ∧ s ≠ "today") := by
  constructor
  · rintro ⟨e, he⟩
    by_cases h1 : s = "" <;> by_cases h2 : s = "today" <;>
      simp [parseTimeframeToAfterTimestamp, h1, h2] at he ⊢
  · rintro ⟨h1, h2⟩
    refine ⟨TypesError.mk 400 badRequestCode "invalid timeframe value", ?_⟩
    simp [parseTimeframeToAfterTimestamp, h1, h2]

/-- Claim C4. Timeframe resolution: `""` resolves to lower bound `0` with no
error; `"today"` resolves, with no error, to a timestamp that is 00:00:00
UTC of the current day (it is divisible by 86400, lies in the same UTC day
as `now`, and does not exceed `now`); every other string is rejected with a
400 error whose message is "invalid timeframe value"; and no input outside
`""`/`"today"` ever succeeds. -/
theorem c4_parseTimeframe_spec (now : Nat) :
    parseTimeframeToAfterTimestamp now "" = Except.ok 0
  ∧ parseTimeframeToAfterTimestamp now "today" =
      Except.ok (GetTodayStartTimestampInSeconds now : Int)
  ∧ (GetTodayStartTimestampInSeconds now % 86400 = 0
      ∧ GetTodayStartTimestampInSeconds now / 86400 = now / 86400
      ∧ GetTodayStartTimestampInSeconds now ≤ now)
  ∧ (∀ s : String, s ≠ "" → s ≠ "today" →
      parseTimeframeToAfterTimestamp now s =
        Except.error (TypesError.mk 400 badRequestCode "invalid timeframe value"))
  ∧ (∀ (s : String) (v : Int),
      parseTimeframeToAfterTimestamp now s = Except.ok v → s = "" ∨ s = "today") := by
  refine ⟨rfl, by simp [parseTimeframeToAfterTimestamp], ⟨?_, ?_, ?_⟩, ?_, ?_⟩
  · simp [GetTodayStartTimestampInSeconds, Nat.mul_mod_right]
  · simp [GetTodayStartTimestampInSeconds]
  · simpa [GetTodayStartTimestampInSeconds, Nat.mul_comm] using
      Nat.div_mul_le_self now 86400
  · intro s h1 h2
    simp [parseTimeframeToAfterTimestamp, h1, h2]
  · intro s v h
    exact parseTimeframe_ok_cases now s v h

/-- Modelled from the spec: `parsePublicKeyQuery` is not under src/; per
the spec (§4.1) it reads the named query parameter and accepts exactly the
strings that are valid hex of the compressed-public-key length (33 bytes,
66 hex characters), failing with an `InvalidPublicKey` 400 error
otherwise. -/
def parsePublicKeyQuery (request : Request) (name : String) :
    Except TypesError String :=
  let raw := request name
  if raw.data.length = 66 ∧
      raw.data.all (fun c => c.isDigit ∨ ('a' ≤ c ∧ c ≤ 'f') ∨ ('A' ≤ c ∧ c ≤ 'F'))
  then Except.ok raw
  else Except.error (TypesError.mk 400 badRequestCode "invalid public key")

/-- One call to the service layer (`h.services`), the handlers' collaborator.
Each constructor is one service method together with the arguments the
handler passes to it. -/
inductive ServiceCall where
  | delegationsByFinalityProviderPkHex (finalityProviderPkHex : String)
  | stakerCountByStakerPk (stakerPkHex : String)
  | checkStakerHasActiveDelegationByAddress (address : String) (afterTimestamp : Int)
deriving DecidableEq, Repr

/-- The service layer consumed by the handlers, as an abstract collaborator:
each field is one service method's behaviour (its source is not under
src/).  Counts are Go `int64`/`int` values, hence `Int`. -/
structure Services where
  delegationsByFinalityProviderPkHex : String → Except TypesError (List DelegationRecord)
  stakerCountByStakerPk : String → Except TypesError Int
  checkStakerHasActiveDelegationByAddress : String → Int → Except TypesError Bool

/-- The payload placed in a handler `Result` by `NewResult`. -/
inductive ResultData where
  | nat (n : Nat)
  | int (n : Int)
  | bool (b : Bool)
deriving DecidableEq, Repr

/-- The handlers' success value (`Result` in the Go source). -/
structure Result where
  data : ResultData
deriving DecidableEq, Repr

/-- One step of the `countMap[delegation.StakerPkHex]++` statement of
`GetStakerCountByFinalityProvider`: the Go `map[string]int` is embedded as
an association list; an existing key has its value incremented in place, a
new key is appended with value 1. -/
def mapIncr (m : List (String × Nat)) (k : String) : List (String × Nat) :=
  if m.any (fun p => p.1 == k) then
    m.map (fun p => if p.1 == k then (p.1, p.2 + 1) else p)
  else m ++ [(k, 1)]

/-- The loop of `GetStakerCountByFinalityProvider` (part_000 lines 54–60):
records in state `Unbonded` are skipped, every other record bumps its
staker's entry in `countMap`.  `m` is the map state entering the loop. -/
def stakerCountFold (m : List (String × Nat)) (delegations : List DelegationRecord) :
    List (String × Nat) :=
  delegations.foldl
    (fun countMap delegation =>
      if delegation.state == unbondedToString then countMap
      else mapIncr countMap delegation.stakerPkHex)
    m

/-- The value `len(countMap)` after the loop of `GetStakerCountByFinalityProvider`,
starting from the empty map (`make(map[string]int)`). -/
def stakerCountLoop (delegations : List DelegationRecord) : Nat :=
  (stakerCountFold [] delegations).length

/-- The loop of `GetDelegationsCountByFinalityProvider` (part_000 lines
82–88) followed by `len(countSlice)`: records in state `Unbonded` are
skipped, every other record appends its staker key to `countSlice`. -/
def delegationsCountLoop (delegations : List DelegationRecord) : Nat :=
  (delegations.foldl
    (fun countSlice delegation =>
      if delegation.state == unbondedToString then countSlice
      else countSlice ++ [delegation.stakerPkHex])
    ([] : List String)).length

/-- Handler `GetStakerCountByFinalityProvider` (part_000 lines 37–63): parse the
`finality_provider_pk_hex` query parameter, fetch all delegations for that
finality provider from the service layer, and return the number of
distinct staker keys among the non-unbonded ones.  The first component
records the service calls the handler made, in order. -/
def GetStakerCountByFinalityProvider (h : Services) (request : Request) :
    List ServiceCall × Except TypesError Result :=
  match parsePublicKeyQuery request "finality_provider_pk_hex" with
  | Except.error e => ([], Except.error e)
  | Except.ok finalityProviderPkHex =>
    match h.delegationsByFinalityProviderPkHex finalityProviderPkHex with
    | Except.error e =>
      ([ServiceCall.delegationsByFinalityProviderPkHex finalityProviderPkHex], Except.error e)
    | Except.ok delegations =>
      ([ServiceCall.delegationsByFinalityProviderPkHex finalityProviderPkHex],
        Except.ok (Result.mk (ResultData.nat (stakerCountLoop delegations))))

/-- Handler `GetDelegationsCountByFinalityProvider` (part_000 lines 65–91): same
parameter and same service fetch as the staker count, but the result is
the length of `countSlice` — one entry per non-unbonded record, duplicates
kept. -/
def GetDelegationsCountByFinalityProvider (h : Services) (request : Request) :
    List ServiceCall × Except TypesError Result :=
  match parsePublicKeyQuery request "finality_provider_pk_hex" with
  | Except.error e => ([], Except.error e)
  | Except.ok finalityProviderPkHex =>
    match h.delegationsByFinalityProviderPkHex finalityProviderPkHex with
    | Except.error e =>
      ([ServiceCall.delegationsByFinalityProviderPkHex finalityProviderPkHex], Except.error e)
    | Except.ok delegations =>
      ([ServiceCall.delegationsByFinalityProviderPkHex finalityProviderPkHex],
        Except.ok (Result.mk (ResultData.nat (delegationsCountLoop delegations))))

/-- Handler `GetStakerCountByStakerPk` (part_000 lines 93–107): parse the
`finality_provider_pk_hex` query parameter and pass its value to the
service method `StakerCountByStakerPk`. -/
def GetStakerCountByStakerPk (h : Services) (request : Request) :
    List ServiceCall × Except TypesError Result :=
  match parsePublicKeyQuery request "finality_provider_pk_hex" with
  | Except.error e => ([], Except.error e)
  | Except.ok finalityProviderPkHex =>
    match h.stakerCountByStakerPk finalityProviderPkHex with
    | Except.error e =>
      ([ServiceCall.stakerCountByStakerPk finalityProviderPkHex], Except.error e)
    | Except.ok count =>
      ([ServiceCall.stakerCountByStakerPk finalityProviderPkHex],
        Except.ok (Result.mk (ResultData.int count)))

/-- Handler `CheckStakerDelegationExist` (part_000 lines 119–138): validate the
`address` query parameter, resolve the `timeframe` parameter to a lower
bound, and return the boolean from the address-keyed active-delegation
lookup.  `parseBtcAddressQuery` is the address validator (its source is
outside src/; it is determined by `h.config.Server.BTCNetParam`), taken
here as a parameter; `now` is the wall clock used by timeframe
resolution. -/
def CheckStakerDelegationExist
    (parseBtcAddressQuery : String → Except TypesError String)
    (now : Nat) (h : Services) (request : Request) :
    List ServiceCall × Except TypesError Result :=
  match parseBtcAddressQuery (request "address") with
  | Except.error e => ([], Except.error e)
  | Except.ok address =>
    match parseTimeframeToAfterTimestamp now (request "timeframe") with
    | Except.error e => ([], Except.error e)
    | Except.ok afterTimestamp =>
      match h.checkStakerHasActiveDelegationByAddress address afterTimestamp with
      | Except.error e =>
        ([ServiceCall.checkStakerHasActiveDelegationByAddress address afterTimestamp],
          Except.error e)
      | Except.ok exist =>
        ([ServiceCall.checkStakerHasActiveDelegationByAddress address afterTimestamp],
          Except.ok (Result.mk (ResultData.bool exist)))

theorem any_eq_mem_keys (m : List (String × Nat)) (k : String) :
    m.any (fun p => p.1 == k) = true ↔ k ∈ m.map Prod.fst := by
  rw [List.any_eq_true]
  constructor
  · rintro ⟨p, hp, hpk⟩
    exact List.mem_map.mpr ⟨p, hp, by simpa using hpk⟩
  · intro h
    obtain ⟨p, hp, rfl⟩ := List.mem_map.mp h
    exact ⟨p, hp, by simp⟩

theorem keys_mapIncr (m : List (String × Nat)) (k : String) :
    (mapIncr m k).map Prod.fst =
      if k ∈ m.map Prod.fst then m.map Prod.fst else m.map Prod.fst ++ [k] := by
  unfold mapIncr
  by_cases h : k ∈ m.map Prod.fst
  · rw [if_pos ((any_eq_mem_keys m k).mpr h), if_pos h, List.map_map]
    refine List.map_congr_left ?_
    intro p _
    by_cases hp : p.1 = k <;> simp [hp]
  · rw [if_neg (fun hc => h ((any_eq_mem_keys m k).mp hc)), if_neg h]
    simp

theorem mem_keys_stakerCountFold (delegations : List DelegationRecord)
    (m : List (String × Nat)) (k : String) :
    k ∈ (stakerCountFold m delegations).map Prod.fst ↔
      k ∈ m.map Prod.fst ∨
        k ∈ (delegations.filter (fun d => d.state != unbondedToString)).map
          DelegationRecord.stakerPkHex := by
  induction delegations generalizing m with
  | nil => simp [stakerCountFold]
  | cons d l ih =>
    by_cases hd : d.state = unbondedToString
    · have hfold : stakerCountFold m (d :: l) = stakerCountFold m l := by
        simp [stakerCountFold, hd]
      have hfilt : (d :: l).filter (fun d => d.state != unbondedToString) =
          l.filter (fun d => d.state != unbondedToString) := by
        simp [List.filter_cons, hd]
      rw [hfold, hfilt, ih]
    · have hfold : stakerCountFold m (d :: l) =
          stakerCountFold (mapIncr m d.stakerPkHex) l := by
        simp [stakerCountFold, hd]
      have hfilt : (d :: l).filter (fun d => d.state != unbondedToString) =
          d :: l.filter (fun d => d.state != unbondedToString) := by
        simp [List.filter_cons, hd]
      rw [hfold, hfilt, ih, keys_mapIncr]
      by_cases hm : d.stakerPkHex ∈ m.map Prod.fst
      · rw [if_pos hm]
        simp only [List.map_cons, List.mem_cons]
        constructor
        · tauto
        · rintro (h | h | h) <;> [skip; (subst h; exact Or.inl hm); tauto]
          tauto
      · rw [if_neg hm]
        simp only [List.mem_append, List.mem_singleton, List.map_cons, List.mem_cons]
        tauto

theorem nodup_keys_stakerCountFold (delegations : List DelegationRecord)
    (m : List (String × Nat)) (hm : (m.map Prod.fst).Nodup) :
    ((stakerCountFold m delegations).map Prod.fst).Nodup := by
  induction delegations generalizing m with
  | nil => simpa [stakerCountFold] using hm
  | cons d l ih =>
    by_cases hd : d.state = unbondedToString
    · have hfold : stakerCountFold m (d :: l) = stakerCountFold m l := by
        simp [stakerCountFold, hd]
      rw [hfold]
      exact ih m hm
    · have hfold : stakerCountFold m (d :: l) =
          stakerCountFold (mapIncr m d.stakerPkHex) l := by
        simp [stakerCountFold, hd]
      rw [hfold]
      refine ih _ ?_
      rw [keys_mapIncr]
      by_cases hmem : d.stakerPkHex ∈ m.map Prod.fst
      · rwa [if_pos hmem]
      · rw [if_neg hmem]
        simp [List.nodup_append, hm, hmem]

/-- The distinct-staker loop computes the number of distinct staker keys
among the non-unbonded records: the `len(countMap)` of the source equals
the cardinality of the set of `StakerPkHex` values of the records passing
the state filter. -/
theorem stakerCountLoop_eq_card (delegations : List DelegationRecord) :
    stakerCountLoop delegations =
      ((delegations.filter (fun d => d.state != unbondedToString)).map
        DelegationRecord.stakerPkHex).toFinset.card := by
  have hn : ((stakerCountFold [] delegations).map Prod.fst).Nodup :=
    nodup_keys_stakerCountFold delegations [] (by simp)
  have hs : ((stakerCountFold [] delegations).map Prod.fst).toFinset =
      ((delegations.filter (fun d => d.state != unbondedToString)).map
        DelegationRecord.stakerPkHex).toFinset := by
    ext x
    rw [List.mem_toFinset, List.mem_toFinset, mem_keys_stakerCountFold]
    simp
  calc stakerCountLoop delegations
      = ((stakerCountFold [] delegations).map Prod.fst).length := by
        simp [stakerCountLoop]
    _ = ((stakerCountFold [] delegations).map Prod.fst).toFinset.card :=
        (List.toFinset_card_of_nodup hn).symm
    _ = _ := by rw [hs]

theorem delegationsCountFold_length (delegations : List DelegationRecord)
    (s : List String) :
    (delegations.foldl
      (fun countSlice delegation =>
        if delegation.state == unbondedToString then countSlice
        else countSlice ++ [delegation.stakerPkHex]) s).length =
      s.length + (delegations.filter (fun d => d.state != unbondedToString)).length := by
  induction delegations generalizing s with
  | nil => simp
  | cons d l ih =>
    by_cases hd : d.state = unbondedToString
    · rw [List.foldl_cons]
      simp only [hd, beq_self_eq_true, if_true]
      rw [ih]
      simp [List.filter_cons, hd]
    · have hfilt : (d :: l).filter (fun d => d.state != unbondedToString) =
          d :: l.filter (fun d => d.state != unbondedToString) := by
        simp [List.filter_cons, hd]
      rw [List.foldl_cons,
        if_neg (show ¬(d.state == unbondedToString) = true by simpa using hd)]
      rw [ih, hfilt]
      simp only [List.length_append, List.length_cons, List.length_nil]
      omega

/-- The delegation-count loop computes the number of non-unbonded records:
the `len(countSlice)` of the source equals the length of the state-filtered
list, duplicates by staker kept. -/
theorem delegationsCountLoop_eq_length (delegations : List DelegationRecord) :
    delegationsCountLoop delegations =
      (delegations.filter (fun d => d.state != unbondedToString)).length := by
  unfold delegationsCountLoop
  rw [delegationsCountFold_length]
  simp

/-- Witness for C4 at `now = 1700000000`: the empty timeframe yields `0`,
`"today"` yields the enclosing midnight, and `"yesterday"` is rejected. -/
theorem c4_parseTimeframe_spec_witness :
    parseTimeframeToAfterTimestamp 1700000000 "" = Except.ok 0
  ∧ parseTimeframeToAfterTimestamp 1700000000 "today" = Except.ok 1699920000
  ∧ parseTimeframeToAfterTimestamp 1700000000 "yesterday" =
      Except.error (TypesError.mk 400 badRequestCode "invalid timeframe value") := by
  obtain ⟨h1, h2, _, h4, _⟩ := c4_parseTimeframe_spec 1700000000
  refine ⟨h1, ?_, h4 "yesterday" (by decide) (by decide)⟩
  rw [h2]
  norm_num [GetTodayStartTimestampInSeconds]

/-- A finality-provider public key of the shape the key validator accepts:
66 lowercase hex characters. -/
def pk0 : String := "aaaaaaaaaaaaaaaaaaaaaaaaaaaaaaaaaaaaaaaaaaaaaaaaaaaaaaaaaaaaaaaaaa"

/-- A concrete request carrying `pk0` in the `finality_provider_pk_hex`
query parameter and nothing else. -/
def req0 : Request := fun name => if name = "finality_provider_pk_hex" then pk0 else ""

/-- The spec's end-to-end example delegation set:
`[{staker:A,state:Active},{staker:A,state:Unbonded},{staker:B,state:Active}]`. -/
def exampleDelegations : List DelegationRecord :=
  [DelegationRecord.mk "A" "fp" "active",
   DelegationRecord.mk "A" "fp" "unbonded",
   DelegationRecord.mk "B" "fp" "active"]

/-- A concrete service layer: the provider-keyed fetch returns the example
delegation set, the staker-keyed count returns 3, the existence lookup
returns true. -/
def svc0 : Services :=
  Services.mk (fun _ => Except.ok exampleDelegations) (fun _ => Except.ok 3)
    (fun _ _ => Except.ok true)

/-- A concrete upstream failure, as surfaced by a failing gateway fetch. -/
def upstreamError : TypesError :=
  TypesError.mk 500 "INTERNAL_SERVICE_ERROR" "error while fetching delegations"

/-- A concrete service layer whose provider-keyed fetch fails. -/
def svcErr : Services :=
  Services.mk (fun _ => Except.error upstreamError) (fun _ => Except.ok 0)
    (fun _ _ => Except.ok false)

/-- Claim C1 counterexample. The claim says every collaborator call made by
`GetStakerCountByStakerPk` is the provider-keyed lookup
(`DelegationsByFinalityProviderPkHex`).  On the concrete request `req0`
against `svc0` the handler makes a call that is not of that form: it calls
the staker-keyed `StakerCountByStakerPk` method instead. -/
theorem c1_counterexample :
    ¬ ∀ c ∈ (GetStakerCountByStakerPk svc0 req0).1,
        ∃ k, c = ServiceCall.delegationsByFinalityProviderPkHex k := by
  intro hall
  have htrace : (GetStakerCountByStakerPk svc0 req0).1 =
      [ServiceCall.stakerCountByStakerPk pk0] := by rfl
  have hmem : ServiceCall.stakerCountByStakerPk pk0 ∈ (GetStakerCountByStakerPk svc0 req0).1 := by
    rw [htrace]
    exact List.mem_singleton_self _
  obtain ⟨k, hk⟩ := hall _ hmem
  exact ServiceCall.noConfusion hk

/-- Claim C1, amended. `GetStakerCountByStakerPk` reads its key from the
query parameter named for the finality-provider key
(`finality_provider_pk_hex`), but the collaborator call it makes is the
staker-keyed count lookup (`StakerCountByStakerPk`), applied to that
parameter value — not the provider-keyed fetch used by the
count-by-finality-provider operations; its result is that lookup's count
passed through unchanged. -/
theorem c1_staker_keyed_call (h : Services) (request : Request)
    (finalityProviderPkHex : String)
    (hpk : parsePublicKeyQuery request "finality_provider_pk_hex" =
      Except.ok finalityProviderPkHex) :
    (GetStakerCountByStakerPk h request).1 =
      [ServiceCall.stakerCountByStakerPk finalityProviderPkHex]
  ∧ (GetStakerCountByStakerPk h request).2 =
      (h.stakerCountByStakerPk finalityProviderPkHex).map
        (fun count => Result.mk (ResultData.int count)) := by
  cases hcall : h.stakerCountByStakerPk finalityProviderPkHex <;>
    simp [GetStakerCountByStakerPk, hpk, hcall, Except.map]

/-- Witness for the amended C1 on the concrete request `req0` against
`svc0`. -/
theorem c1_staker_keyed_call_witness :
    (GetStakerCountByStakerPk svc0 req0).1 = [ServiceCall.stakerCountByStakerPk pk0]
  ∧ (GetStakerCountByStakerPk svc0 req0).2 =
      Except.ok (Result.mk (ResultData.int 3)) := by
  obtain ⟨h1, h2⟩ := c1_staker_keyed_call svc0 req0 pk0 (by rfl)
  refine ⟨h1, ?_⟩
  rw [h2]
  rfl

/-- Claim C2. Whenever the provider-keyed fetch returns a list of
delegation records, `GetStakerCountByFinalityProvider` returns the number
of distinct `stakerPkHex` values among the records whose state is not
`Unbonded` — the cardinality of the set of staker keys of the filtered
records, so each staker with at least one non-unbonded delegation
contributes exactly 1. -/
theorem c2_distinct_staker_count (h : Services) (request : Request)
    (finalityProviderPkHex : String) (delegations : List DelegationRecord)
    (hpk : parsePublicKeyQuery request "finality_provider_pk_hex" =
      Except.ok finalityProviderPkHex)
    (hfetch : h.delegationsByFinalityProviderPkHex finalityProviderPkHex =
      Except.ok delegations) :
    (GetStakerCountByFinalityProvider h request).2 =
      Except.ok (Result.mk (ResultData.nat
        (((delegations.filter (fun d => d.state != unbondedToString)).map
          DelegationRecord.stakerPkHex).toFinset.card))) := by
  simp [GetStakerCountByFinalityProvider, hpk, hfetch, stakerCountLoop_eq_card]

/-- Witness for C2 on `req0` against `svc0`: the example delegation set has
2 distinct non-unbonded stakers. -/
theorem c2_distinct_staker_count_witness :
    (GetStakerCountByFinalityProvider svc0 req0).2 =
      Except.ok (Result.mk (ResultData.nat 2)) := by
  have h := c2_distinct_staker_count svc0 req0 pk0 exampleDelegations (by rfl) (by rfl)
  rw [h]
  rfl

/-- Claim C3. Whenever the provider-keyed fetch returns a list of
delegation records, `GetDelegationsCountByFinalityProvider` returns the
number of records whose state is not `Unbonded`, duplicates by staker kept;
on the example input `[{A,active},{A,unbonded},{B,active}]` the delegation
count is 2 and the distinct-staker count is 2. -/
theorem c3_delegations_count (h : Services) (request : Request)
    (finalityProviderPkHex : String) (delegations : List DelegationRecord)
    (hpk : parsePublicKeyQuery request "finality_provider_pk_hex" =
      Except.ok finalityProviderPkHex)
    (hfetch : h.delegationsByFinalityProviderPkHex finalityProviderPkHex =
      Except.ok delegations) :
    (GetDelegationsCountByFinalityProvider h request).2 =
      Except.ok (Result.mk (ResultData.nat
        ((delegations.filter (fun d => d.state != unbondedToString)).length)))
  ∧ delegationsCountLoop exampleDelegations = 2
  ∧ stakerCountLoop exampleDelegations = 2 := by
  refine ⟨?_, by rfl, by rfl⟩
  simp [GetDelegationsCountByFinalityProvider, hpk, hfetch, delegationsCountLoop_eq_length]

/-- Witness for C3 on `req0` against `svc0`: the example delegation set has
2 non-unbonded delegations. -/
theorem c3_delegations_count_witness :
    (GetDelegationsCountByFinalityProvider svc0 req0).2 =
      Except.ok (Result.mk (ResultData.nat 2)) := by
  obtain ⟨h1, _, _⟩ := c3_delegations_count svc0 req0 pk0 exampleDelegations (by rfl) (by rfl)
  rw [h1]
  rfl

/-- Claim C6. Inserting a record whose state is `Unbonded` at any position
of the delegation sequence changes neither the distinct-staker count nor
the delegation count. -/
theorem c6_unbonded_never_counts (l1 l2 : List DelegationRecord)
    (d : DelegationRecord) (hd : d.state = unbondedToString) :
    stakerCountLoop (l1 ++ d :: l2) = stakerCountLoop (l1 ++ l2)
  ∧ delegationsCountLoop (l1 ++ d :: l2) = delegationsCountLoop (l1 ++ l2) := by
  have hfilter : (l1 ++ d :: l2).filter (fun r => r.state != unbondedToString) =
      (l1 ++ l2).filter (fun r => r.state != unbondedToString) := by
    simp [List.filter_append, List.filter_cons, hd]
  constructor
  · rw [stakerCountLoop_eq_card, stakerCountLoop_eq_card, hfilter]
  · rw [delegationsCountLoop_eq_length, delegationsCountLoop_eq_length, hfilter]

/-- Witness for C6: inserting an unbonded record of a fresh staker C in the
middle of the example set leaves both counts at 2. -/
theorem c6_unbonded_never_counts_witness :
    stakerCountLoop
        [DelegationRecord.mk "A" "fp" "active",
         DelegationRecord.mk "C" "fp" unbondedToString,
         DelegationRecord.mk "A" "fp" "unbonded",
         DelegationRecord.mk "B" "fp" "active"] =
      stakerCountLoop exampleDelegations
  ∧ delegationsCountLoop
        [DelegationRecord.mk "A" "fp" "active",
         DelegationRecord.mk "C" "fp" unbondedToString,
         DelegationRecord.mk "A" "fp" "unbonded",
         DelegationRecord.mk "B" "fp" "active"] =
      delegationsCountLoop exampleDelegations :=
  c6_unbonded_never_counts
    [DelegationRecord.mk "A" "fp" "active"]
    [DelegationRecord.mk "A" "fp" "unbonded", DelegationRecord.mk "B" "fp" "active"]
    (DelegationRecord.mk "C" "fp" unbondedToString) rfl

/-- Claim C7. The distinct-staker count is order-independent: permuting the
delegation sequence does not change `stakerCountLoop`. -/
theorem c7_staker_count_perm_invariant (l1 l2 : List DelegationRecord)
    (hp : l1.Perm l2) :
    stakerCountLoop l1 = stakerCountLoop l2 := by
  rw [stakerCountLoop_eq_card, stakerCountLoop_eq_card]
  congr 1
  exact List.toFinset_eq_of_perm _ _ ((hp.filter _).map _)

/-- Witness for C7: reversing the example delegation set preserves the
distinct-staker count. -/
theorem c7_staker_count_perm_invariant_witness :
    stakerCountLoop exampleDelegations =
      stakerCountLoop
        [DelegationRecord.mk "B" "fp" "active",
         DelegationRecord.mk "A" "fp" "unbonded",
         DelegationRecord.mk "A" "fp" "active"] :=
  c7_staker_count_perm_invariant _ _ (by decide)

/-- Claim C8. Aggregation is atomic on failure: when the provider-keyed
fetch fails with error `e`, both counting handlers return exactly
`Except.error e` — an error value carrying no count at all. -/
theorem c8_atomic_failure (h : Services) (request : Request)
    (finalityProviderPkHex : String) (e : TypesError)
    (hpk : parsePublicKeyQuery request "finality_provider_pk_hex" =
      Except.ok finalityProviderPkHex)
    (hfetch : h.delegationsByFinalityProviderPkHex finalityProviderPkHex =
      Except.error e) :
    (GetStakerCountByFinalityProvider h request).2 = Except.error e
  ∧ (GetDelegationsCountByFinalityProvider h request).2 = Except.error e := by
  constructor <;>
    simp [GetStakerCountByFinalityProvider, GetDelegationsCountByFinalityProvider,
      hpk, hfetch]

/-- Witness for C8 on `req0` against the failing service layer `svcErr`. -/
theorem c8_atomic_failure_witness :
    (GetStakerCountByFinalityProvider svcErr req0).2 = Except.error upstreamError
  ∧ (GetDelegationsCountByFinalityProvider svcErr req0).2 = Except.error upstreamError :=
  c8_atomic_failure svcErr req0 pk0 upstreamError (by rfl) (by rfl)

/-- Claim C5. `CheckStakerDelegationExist` returns an error exactly when
the address validator fails, or the timeframe is a non-empty string other
than `"today"`, or the address-keyed lookup fails; on every other input it
returns exactly the boolean produced by the address-keyed
active-delegation lookup at the resolved lower-bound timestamp.  The
address validator is the external `parseBtcAddressQuery` capability, taken
as a parameter. -/
theorem c5_existence_check (pA : String → Except TypesError String)
    (now : Nat) (h : Services) (request : Request) :
    ((∃ e, (CheckStakerDelegationExist pA now h request).2 = Except.error e) ↔
      ((∃ e, pA (request "address") = Except.error e)
        ∨ (request "timeframe" ≠ "" ∧ request "timeframe" ≠ "today")
        ∨ (∃ address afterTimestamp e,
            pA (request "address") = Except.ok address
            ∧ parseTimeframeToAfterTimestamp now (request "timeframe") =
                Except.ok afterTimestamp
            ∧ h.checkStakerHasActiveDelegationByAddress address afterTimestamp =
                Except.error e)))
  ∧ (∀ address afterTimestamp exist,
      pA (request "address") = Except.ok address →
      parseTimeframeToAfterTimestamp now (request "timeframe") =
        Except.ok afterTimestamp →
      h.checkStakerHasActiveDelegationByAddress address afterTimestamp =
        Except.ok exist →
      (CheckStakerDelegationExist pA now h request).2 =
        Except.ok (Result.mk (ResultData.bool exist))) := by
  constructor
  · cases ha : pA (request "address") with
    | error e =>
      have hval : (CheckStakerDelegationExist pA now h request).2 = Except.error e := by
        simp [CheckStakerDelegationExist, ha]
      exact ⟨fun _ => Or.inl ⟨e, rfl⟩, fun _ => ⟨e, hval⟩⟩
    | ok address =>
      cases ht : parseTimeframeToAfterTimestamp now (request "timeframe") with
      | error e =>
        have hval : (CheckStakerDelegationExist pA now h request).2 = Except.error e := by
          simp [CheckStakerDelegationExist, ha, ht]
        have htf : request "timeframe" ≠ "" ∧ request "timeframe" ≠ "today" :=
          (parseTimeframe_error_iff now _).mp ⟨e, ht⟩
        exact ⟨fun _ => Or.inr (Or.inl htf), fun _ => ⟨e, hval⟩⟩
      | ok afterTimestamp =>
        cases hc : h.checkStakerHasActiveDelegationByAddress address afterTimestamp with
        | error e =>
          have hval : (CheckStakerDelegationExist pA now h request).2 = Except.error e := by
            simp [CheckStakerDelegationExist, ha, ht, hc]
          exact ⟨fun _ => Or.inr (Or.inr ⟨address, afterTimestamp, e, rfl, rfl, hc⟩),
                 fun _ => ⟨e, hval⟩⟩
        | ok exist =>
          have hval : (CheckStakerDelegationExist pA now h request).2 =
              Except.ok (Result.mk (ResultData.bool exist)) := by
            simp [CheckStakerDelegationExist, ha, ht, hc]
          constructor
          · rintro ⟨e, he⟩
            rw [hval] at he
            exact absurd he (by simp)
          · rintro (⟨e, he⟩ | htf | ⟨address', afterTimestamp', e, ha', ht', hc'⟩)
            · exact absurd he (by simp)
            · rcases parseTimeframe_ok_cases now _ _ ht with h0 | h0
              · exact absurd h0 htf.1
              · exact absurd h0 htf.2
            · have haddr : address = address' := by simpa using ha'
              subst haddr
              have hts : afterTimestamp = afterTimestamp' := by simpa using ht'
              subst hts
              rw [hc] at hc'
              exact absurd hc' (by simp)
  · intro address afterTimestamp exist ha ht hc
    simp [CheckStakerDelegationExist, ha, ht, hc]

/-- A concrete request for the existence check: a non-empty address and an
empty timeframe. -/
def reqAddr : Request := fun name => if name = "address" then "tb1qexampleaddr" else ""

/-- A concrete address validator: rejects the empty string, accepts any
other address unchanged. -/
def pA0 : String → Except TypesError String := fun s =>
  if s = "" then Except.error (TypesError.mk 400 badRequestCode "invalid address")
  else Except.ok s

/-- Witness for C5: with a valid address, an empty timeframe and a lookup
returning true, the handler returns exactly that boolean. -/
theorem c5_existence_check_witness :
    (CheckStakerDelegationExist pA0 1700000000 svc0 reqAddr).2 =
      Except.ok (Result.mk (ResultData.bool true)) :=
  (c5_existence_check pA0 1700000000 svc0 reqAddr).2 "tb1qexampleaddr" 0 true
    (by rfl) (by rfl) (by rfl)

/-- `ServerConfig` (server.go lines 12–20).  Go `time.Duration` is a signed
64-bit nanosecond count, embedded as `Int`; `Port` is a Go `int`, likewise
`Int`. -/
structure ServerConfig where
  host : String
  port : Int
  writeTimeout : Int
  readTimeout : Int
  idleTimeout : Int
  allowedOrigins : List String
  logLevel : String

/-- `ServerConfig.Validate` (server.go lines 22–45): host must parse as an
IP, port must lie in 0..65535, the three timeouts must be non-negative.
`parseIP` stands for Go stdlib `net.ParseIP` (external collaborator); a
`nil` result is modelled as `false`.  The returned `error` is modelled as
`Option String` (`none` = `nil`). -/
def ServerConfig.validate (parseIP : String → Bool) (cfg : ServerConfig) :
    Option String :=
  if ¬ parseIP cfg.host then some ("invalid host: " ++ cfg.host)
  else if cfg.port < 0 ∨ cfg.port > 65535 then some "invalid port"
  else if cfg.writeTimeout < 0 then some "write timeout cannot be negative"
  else if cfg.readTimeout < 0 then some "read timeout cannot be negative"
  else if cfg.idleTimeout < 0 then some "idle timeout cannot be negative"
  else none

/-- Claim C9. `ServerConfig.Validate` returns nil exactly when the host
parses as an IP address, the port lies between 0 and 65535 inclusive, and
the three timeouts are non-negative; and it never examines
`AllowedOrigins` or `LogLevel` — replacing those two fields by any values
leaves its result unchanged. -/
theorem c9_validate_spec (parseIP : String → Bool) (cfg : ServerConfig)
    (origins : List String) (level : String) :
    (ServerConfig.validate parseIP cfg = none ↔
      (parseIP cfg.host = true ∧ 0 ≤ cfg.port ∧ cfg.port ≤ 65535
        ∧ 0 ≤ cfg.writeTimeout ∧ 0 ≤ cfg.readTimeout ∧ 0 ≤ cfg.idleTimeout))
  ∧ ServerConfig.validate parseIP
      { cfg with allowedOrigins := origins, logLevel := level } =
      ServerConfig.validate parseIP cfg := by
  refine ⟨?_, rfl⟩
  unfold ServerConfig.validate
  split_ifs with h1 h2 h3 h4 h5
  all_goals simp_all
  all_goals omega

/-- Witness for C9 (the theorem has no hypotheses; recorded for a concrete
accepting configuration anyway): a valid config passes `Validate`. -/
theorem c9_validate_spec_witness :
    ServerConfig.validate (fun _ => true)
      (ServerConfig.mk "127.0.0.1" 8080 10 10 10 [] "debug") = none :=
  (c9_validate_spec (fun _ => true)
    (ServerConfig.mk "127.0.0.1" 8080 10 10 10 [] "debug") [] "").1.mpr
    (by refine ⟨rfl, ?_, ?_, ?_, ?_, ?_⟩ <;> decide)

/-- Modelled from the zerolog library (external collaborator):
`zerolog.DebugLevel` is `0`. -/
def zerologDebugLevel : Int := 0

/-- Modelled from the zerolog library (external collaborator):
`zerolog.FatalLevel` is `4`. -/
def zerologFatalLevel : Int := 4

/-- Modelled from Go `strconv.Atoi`, restricted to what
`zerolog.ParseLevel` observes: an optional sign followed by at least one
decimal digit parses to the signed decimal value, anything else fails.
Atoi's int64-overflow failure is indistinguishable at this use site: an
overflowing string denotes a value far outside the level range `-1..7`, so
it is rejected either way. -/
def goAtoi (s : String) : Option Int :=
  let signDigits : Int × List Char :=
    if s.data.take 1 = ['-'] then (-1, s.data.drop 1)
    else if s.data.take 1 = ['+'] then (1, s.data.drop 1)
    else (1, s.data)
  if signDigits.2 ≠ [] ∧ signDigits.2.all Char.isDigit then
    some (signDigits.1 *
      ((signDigits.2.foldl (fun acc c => acc * 10 + (c.toNat - 48)) (0 : Nat) : Nat) : Int))
  else none

/-- Modelled from the zerolog library (external collaborator):
`zerolog.ParseLevel` maps the level names (as produced by
`LevelFieldMarshalFunc`: `"trace"` is `-1`, `"debug"` `0`, `"info"` `1`,
`"warn"` `2`, `"error"` `3`, `"fatal"` `4`, `"panic"` `5`, `""` `6`
(NoLevel), `"disabled"` `7`) to their numeric levels, then falls back to
`strconv.Atoi` accepting numeric strings within `-1..7`; everything else
fails. -/
def parseLevel (s : String) : Except String Int :=
  if s = "trace" then Except.ok (-1)
  else if s = "debug" then Except.ok 0
  else if s = "info" then Except.ok 1
  else if s = "warn" then Except.ok 2
  else if s = "error" then Except.ok 3
  else if s = "fatal" then Except.ok 4
  else if s = "panic" then Except.ok 5
  else if s = "" then Except.ok 6
  else if s = "disabled" then Except.ok 7
  else
    match goAtoi s with
    | none => Except.error ("Unknown Level String: " ++ s)
    | some i =>
      if i > 7 ∨ i < -1 then Except.error ("Unknown Level String: " ++ s)
      else Except.ok i

/-- `ServerConfig.ValidateServerLogLevel` (server.go lines 47–59): an
unset (empty) level is accepted without parsing; otherwise the level must
parse under `zerolog.ParseLevel` and lie between `DebugLevel` and
`FatalLevel` inclusive. -/
def ServerConfig.validateServerLogLevel (cfg : ServerConfig) : Option String :=
  if cfg.logLevel = "" then none
  else
    match parseLevel cfg.logLevel with
    | Except.error e => some ("invalid log level: " ++ e)
    | Except.ok parsedLevel =>
      if parsedLevel < zerologDebugLevel ∨ parsedLevel > zerologFatalLevel then
        some "only log levels from debug to fatal are supported"
      else none

/-- A server configuration with the given log level and otherwise valid
fields, for concrete evaluations. -/
def cfgWithLevel (s : String) : ServerConfig :=
  ServerConfig.mk "127.0.0.1" 8080 10 10 10 [] s

/-- Claim C10. `ValidateServerLogLevel` accepts the empty (unset) level;
for a non-empty level it returns nil exactly when the string parses as a
zerolog level between debug and fatal inclusive; and in particular
`"trace"` and `"disabled"` parse as levels (`-1` and `7`) but are
rejected for falling outside that range. -/
theorem c10_log_level_spec (cfg : ServerConfig) :
    (cfg.logLevel = "" → ServerConfig.validateServerLogLevel cfg = none)
  ∧ (cfg.logLevel ≠ "" →
      (ServerConfig.validateServerLogLevel cfg = none ↔
        ∃ l, parseLevel cfg.logLevel = Except.ok l
          ∧ zerologDebugLevel ≤ l ∧ l ≤ zerologFatalLevel))
  ∧ parseLevel "trace" = Except.ok (-1)
  ∧ ServerConfig.validateServerLogLevel (cfgWithLevel "trace") =
      some "only log levels from debug to fatal are supported"
  ∧ parseLevel "disabled" = Except.ok 7
  ∧ ServerConfig.validateServerLogLevel (cfgWithLevel "disabled") =
      some "only log levels from debug to fatal are supported" := by
  refine ⟨?_, ?_, by rfl, by rfl, by rfl, by rfl⟩
  · intro h
    simp [ServerConfig.validateServerLogLevel, h]
  · intro h
    unfold ServerConfig.validateServerLogLevel
    rw [if_neg h]
    cases hp : parseLevel cfg.logLevel with
    | error e => simp
    | ok l =>
      simp only [zerologDebugLevel, zerologFatalLevel]
      by_cases hb : l < 0 ∨ l > 4
      · simp [hb]
        omega
      · simp [hb]
        omega

/-- Witness for C10 at the concrete level `"debug"`: non-empty, parses to
level `0`, accepted. -/
theorem c10_log_level_spec_witness :
    ServerConfig.validateServerLogLevel (cfgWithLevel "debug") = none :=
  ((c10_log_level_spec (cfgWithLevel "debug")).2.1 (by decide)).mpr
    ⟨0, by rfl, by decide, by decide⟩
